import Mathlib

/-!
Verification development for the svgpathtools shape-to-path conversion module
(`svg_to_paths.py`).  The Python source is shallowly embedded: Python floats
are modelled as exact decimal fixed-point numbers (an integer mantissa with a
power-of-ten denominator; every numeric literal accepted by `float(...)` in
this module denotes such a value, and the module only ever adds, subtracts
and multiplies them), `float(...)` coercion becomes a parser, `str(...)` of a
float becomes a decimal printer, attribute dictionaries become association
lists, and raising exceptions becomes the `Except String` monad.  The
regular-expression coordinate-pair scanner is embedded as a faithful
backtracking matcher specialised to the fixed pattern `COORD_PAIR_TMPLT`.

Idealisation: IEEE-754 binary rounding is abstracted away — arithmetic and
`==` comparisons are exact on the decimal values, and the printer renders
the exact value (CPython can print rounding artifacts such as
`-1.7614200000000002` where the exact product is `-1.76142`).  The
properties verified here (command structure, which computed value appears in
which operand slot, equality of whole output strings between two calls that
perform the same float operations, closed-detection on parsed values) are
invariant under this idealisation.
-/

/-- Exact decimal number: the value `num / 10 ^ exp`.  Model of the Python
float values flowing through this module. -/
structure Dec where
  num : Int
  exp : Nat
deriving DecidableEq

namespace Dec

/-- The rational value denoted by a decimal (used for reasoning only). -/
def val (a : Dec) : ℚ := (a.num : ℚ) / 10 ^ a.exp

def add (a b : Dec) : Dec := ⟨a.num * 10 ^ b.exp + b.num * 10 ^ a.exp, a.exp + b.exp⟩

def neg (a : Dec) : Dec := ⟨-a.num, a.exp⟩

def sub (a b : Dec) : Dec := a.add b.neg

def mul (a b : Dec) : Dec := ⟨a.num * b.num, a.exp + b.exp⟩

/-- Multiply by `10 ^ e` for an integer `e` (used for the parsed exponent). -/
def scale10 (a : Dec) (e : Int) : Dec :=
  match e with
  | Int.ofNat n => ⟨a.num * 10 ^ n, a.exp⟩
  | Int.negSucc n => ⟨a.num, a.exp + (n + 1)⟩

instance : Add Dec := ⟨add⟩
instance : Neg Dec := ⟨neg⟩
instance : Sub Dec := ⟨sub⟩
instance : Mul Dec := ⟨mul⟩
instance (n : Nat) : OfNat Dec n := ⟨⟨n, 0⟩⟩

/-- Value equality of two decimals: the model of Python `==` on floats. -/
def Eqv (a b : Dec) : Prop := a.num * 10 ^ b.exp = b.num * 10 ^ a.exp

instance (a b : Dec) : Decidable (Eqv a b) :=
  inferInstanceAs (Decidable (_ = _))
end Dec

/-- Attribute mapping of one SVG element: attribute name to raw string value
(`dom2dict` output in the source). -/
abbrev AttrMap := List (String × String)

/-- A Python value that may flow into `float(...)`: either a raw attribute
string or an already-numeric default such as the literal `0`. -/
inductive PyVal where
  | str : String → PyVal
  | num : Dec → PyVal

/-- Whitespace characters stripped by Python `float` (ASCII subset). -/
def pySpace (c : Char) : Bool :=
  c = ' ' || c = '\t' || c = '\n' || c = '\r' || c = '\x0b' || c = '\x0c'

/-- Numeric value of a list of decimal digit characters. -/
def digitsVal (l : List Char) : Nat :=
  l.foldl (fun a c => a * 10 + (c.toNat - 48)) 0

/-- Core of Python `float(string)` on a stripped character list: optional
sign, integer digits, optional fractional part, optional exponent.  Returns
`none` where CPython raises `ValueError`. -/
def parseFloatCore (l : List Char) : Option Dec :=
  let sgn := match l with
    | c :: rest =>
      if c = '-' then (true, rest) else if c = '+' then (false, rest) else (false, l)
    | [] => (false, [])
  let neg := sgn.1
  let l1 := sgn.2
  let ip := l1.takeWhile Char.isDigit
  let l2 := l1.dropWhile Char.isDigit
  let frac := match l2 with
    | c :: rest =>
      if c = '.' then (rest.takeWhile Char.isDigit, rest.dropWhile Char.isDigit)
      else ([], l2)
    | [] => ([], [])
  let fp := frac.1
  let l3 := frac.2
  if ip.isEmpty && fp.isEmpty then none
  else
    let mant : Dec := ⟨(digitsVal ip : Int) * 10 ^ fp.length + (digitsVal fp : Int), fp.length⟩
    let signed := if neg then -mant else mant
    match l3 with
    | [] => some signed
    | c :: rest =>
      if c = 'e' || c = 'E' then
        let esgn := match rest with
          | d :: rr =>
            if d = '-' then (true, rr) else if d = '+' then (false, rr) else (false, rest)
          | [] => (false, [])
        let ed := esgn.2.takeWhile Char.isDigit
        let r2 := esgn.2.dropWhile Char.isDigit
        if ed.isEmpty || !r2.isEmpty then none
        else some (signed.scale10 (if esgn.1 then -(digitsVal ed : Int) else (digitsVal ed : Int)))
      else none

/-- Python `float(string)`: strip surrounding whitespace, then parse. -/
def parseFloat (s : String) : Option Dec :=
  parseFloatCore (((s.data.dropWhile pySpace).reverse.dropWhile pySpace).reverse)

/-- Python `float(value)` on a string-or-number value; failure carries the
exception text. -/
def pyFloat (v : PyVal) : Except String Dec :=
  match v with
  | PyVal.num q => Except.ok q
  | PyVal.str s =>
    match parseFloat s with
    | some q => Except.ok q
    | none => Except.error ("ValueError: could not convert string to float: " ++ s)

/-- Fractional decimal digits of `rem / den` by long division (at most `fuel`
digits; trailing zeros never appear because division stops at remainder 0). -/
def decDigits (rem den : Nat) : Nat → List Char
  | 0 => []
  | fuel + 1 =>
    if rem = 0 then []
    else Char.ofNat (48 + rem * 10 / den) :: decDigits (rem * 10 % den) den fuel

/-- Models CPython `str` on a float holding a short decimal value: sign,
integer part, a decimal point, and the fractional digits (`"0"` when the
value is integral, as in `str(5.0) = "5.0"`). -/
def decStr (a : Dec) : String :=
  let den := 10 ^ a.exp
  let n := a.num.natAbs
  let fr := decDigits (n % den) den a.exp
  (if a.num < 0 then "-" else "") ++ toString (n / den) ++ "." ++
    (if fr.isEmpty then "0" else String.mk fr)

instance {α β : Type} [DecidableEq α] [DecidableEq β] : DecidableEq (Except α β) :=
  fun a b =>
    match a, b with
    | Except.ok x, Except.ok y =>
      match decEq x y with
      | isTrue h => isTrue (by rw [h])
      | isFalse h => isFalse (by intro hc; injection hc; contradiction)
    | Except.error x, Except.error y =>
      match decEq x y with
      | isTrue h => isTrue (by rw [h])
      | isFalse h => isFalse (by intro hc; injection hc; contradiction)
    | Except.ok _, Except.error _ => isFalse (by intro hc; injection hc)
    | Except.error _, Except.ok _ => isFalse (by intro hc; injection hc)

/-- Python `dict.get(key, default)` where present values are raw strings. -/
def attrOr (m : AttrMap) (k : String) (dflt : PyVal) : PyVal :=
  match List.lookup k m with
  | some v => PyVal.str v
  | none => dflt

/-- Python `dict[key]`: direct lookup, `KeyError` when absent. -/
def keyGet (m : AttrMap) (k : String) : Except String String :=
  match List.lookup k m with
  | some v => Except.ok v
  | none => Except.error ("KeyError: " ++ k)

/-! ## The coordinate-pair scanner (`COORD_PAIR_TMPLT`)

The pattern is
`([+-]?\d*[.\d]\d*[eE][+-]?\d+|[+-]?\d*[.\d]\d*)(?:\s*,\s*|\s+|(?=-))(...)`.
Each sub-pattern is embedded as a function returning all of its
`(consumed, rest)` splits in the backtracking engine's preference order; the
first overall success is the match, as in CPython `re`. -/

/-- A matcher: all `(consumed prefix, remaining suffix)` splits of the input,
in backtracking preference order. -/
def Splits := List Char → List (List Char × List Char)

/-- Splits of a `p*` greedy repetition of a single-character class, shortest
first (building block; reversed below for greedy order). -/
def starSplitsAsc (p : Char → Bool) : List Char → List (List Char × List Char)
  | [] => [([], [])]
  | c :: rest =>
    ([], c :: rest) ::
      (if p c then (starSplitsAsc p rest).map (fun q => (c :: q.1, q.2)) else [])

/-- Greedy `p*`: longest split first. -/
def starSplits (p : Char → Bool) : Splits := fun l => (starSplitsAsc p l).reverse

/-- A single mandatory character from a class. -/
def oneSplit (p : Char → Bool) : Splits := fun l =>
  match l with
  | c :: rest => if p c then [([c], rest)] else []
  | [] => []

/-- Optional single character from a class (greedy: consuming first). -/
def optSplit (p : Char → Bool) : Splits := fun l =>
  match l with
  | c :: rest => if p c then [([c], rest), ([], l)] else [([], l)]
  | [] => [([], [])]

/-- All results of mapping `f` over a list and concatenating, preserving
order (explicit form of flat-map kept elementary for induction). -/
def catMap {α β : Type} (f : α → List β) : List α → List β
  | [] => []
  | x :: rest => f x ++ catMap f rest

/-- Sequencing of two matchers, preference order of the backtracking engine:
outer alternative first, then inner. -/
def seqS (a b : Splits) : Splits := fun l =>
  catMap (fun p => (b p.2).map (fun q => (p.1 ++ q.1, q.2))) (a l)

/-- Alternation of two matchers: first alternative preferred. -/
def altS (a b : Splits) : Splits := fun l => a l ++ b l

def isSignChar (c : Char) : Bool := c = '+' || c = '-'

def isDotOrDigit (c : Char) : Bool := c = '.' || c.isDigit

def isEChar (c : Char) : Bool := c = 'e' || c = 'E'

/-- `\d*[.\d]\d*`: the mantissa core shared by both number alternatives. -/
def mantissaCore : Splits :=
  seqS (starSplits Char.isDigit) (seqS (oneSplit isDotOrDigit) (starSplits Char.isDigit))

/-- `\d+` greedy (one or more digits). -/
def digits1 : Splits := fun l => (starSplits Char.isDigit l).filter (fun p => !p.1.isEmpty)

/-- `[eE][+-]?\d+`: exponent tail of the scientific alternative. -/
def expTail : Splits := seqS (oneSplit isEChar) (seqS (optSplit isSignChar) digits1)

/-- The number group `[+-]?\d*[.\d]\d*[eE][+-]?\d+|[+-]?\d*[.\d]\d*`:
scientific alternative first, then plain. -/
def numToken : Splits :=
  seqS (optSplit isSignChar) (altS (seqS mantissaCore expTail) mantissaCore)

/-- The pair separator `(?:\s*,\s*|\s+|(?=-))`; the third alternative is the
zero-width lookahead before a minus sign. -/
def pairSep : Splits := fun l =>
  seqS (starSplits pySpace) (seqS (oneSplit (fun c => c = ',')) (starSplits pySpace)) l ++
    (starSplits pySpace l).filter (fun p => !p.1.isEmpty) ++
    (match l with
     | c :: _ => if c = '-' then [([], l)] else []
     | [] => [])

/-- One attempt to match the whole two-group pattern at the current position:
`((group1, group2), rest)` candidates in preference order. -/
def coordPairMatch (l : List Char) : List ((List Char × List Char) × List Char) :=
  catMap
    (fun p =>
      catMap
        (fun q => (numToken q.2).map (fun r => ((p.1, r.1), r.2)))
        (pairSep p.2))
    (numToken l)

/-- `re.findall` driver: at each position try the pattern; on success record
the two groups and continue after the match, otherwise advance one
character.  `fuel` bounds the number of steps (the input length suffices). -/
def coordScanAux : Nat → List Char → List (String × String)
  | 0, _ => []
  | _ + 1, [] => []
  | fuel + 1, c :: rest =>
    match coordPairMatch (c :: rest) with
    | ((g1, g2), r) :: _ => (String.mk g1, String.mk g2) :: coordScanAux fuel r
    | [] => coordScanAux fuel rest

/-- `COORD_PAIR_TMPLT.findall(s)`: the ordered coordinate pairs scanned from
`s`, as pairs of raw number-token strings. -/
def coordPairScan (s : String) : List (String × String) :=
  coordScanAux s.data.length s.data

/-! ## Shape converters -/

/-- `path2pathd`: `path.get("d", "")`. -/
def path2pathd (path : AttrMap) : String :=
  (List.lookup "d" path).getD ""

/-- `ellipse2pathd(ellipse, use_cubics)`: converts the parameters from an
ellipse or a circle to a d-string.  `r` (when present) sets both radii; with
`r` absent a missing `rx`/`ry` raises a `TypeError` at `float(None)`;
`cx`/`cy` default to the numeric literal `0`. -/
def ellipse2pathd (ellipse : AttrMap) (use_cubics : Bool) : Except String String := do
  let cx0 := attrOr ellipse "cx" (PyVal.num 0)
  let cy0 := attrOr ellipse "cy" (PyVal.num 0)
  let rx0 := List.lookup "rx" ellipse
  let ry0 := List.lookup "ry" ellipse
  let r0 := List.lookup "r" ellipse
  let rxy ← (match r0 with
    | some rs => do
      let v ← pyFloat (PyVal.str rs)
      pure (v, v)
    | none => do
      let rxv ← (match rx0 with
        | some s => pyFloat (PyVal.str s)
        | none => Except.error "TypeError: float() argument must be a string or a number, not NoneType")
      let ryv ← (match ry0 with
        | some s => pyFloat (PyVal.str s)
        | none => Except.error "TypeError: float() argument must be a string or a number, not NoneType")
      pure (rxv, ryv))
  let rx := rxy.1
  let ry := rxy.2
  let cx ← pyFloat cx0
  let cy ← pyFloat cy0
  if use_cubics then
    let kappa : Dec := ⟨552284, 6⟩
    let rxKappa := rx * kappa
    let ryKappa := ry * kappa
    pure ("M" ++ decStr (cx + rx) ++ " " ++ decStr cy
      ++ "C" ++ decStr (cx + rx) ++ " " ++ decStr (cy + ryKappa) ++ " "
        ++ decStr (cx + rxKappa) ++ " " ++ decStr (cy + ry) ++ " "
        ++ decStr cx ++ " " ++ decStr (cy + ry)
      ++ "C" ++ decStr (cx - rxKappa) ++ " " ++ decStr (cy + ry) ++ " "
        ++ decStr (cx - rx) ++ " " ++ decStr (cy + ryKappa) ++ " "
        ++ decStr (cx - rx) ++ " " ++ decStr cy
      ++ "C" ++ decStr (cx - rx) ++ " " ++ decStr (cy - ryKappa) ++ " "
        ++ decStr (cx - rxKappa) ++ " " ++ decStr (cy - ry) ++ " "
        ++ decStr cx ++ " " ++ decStr (cy - ry)
      ++ "C" ++ decStr (cx + rxKappa) ++ " " ++ decStr (cy - ry) ++ " "
        ++ decStr (cx + rx) ++ " " ++ decStr (cy - ryKappa) ++ " "
        ++ decStr (cx + rx) ++ " " ++ decStr cy
      ++ "z")
  else
    pure ("M" ++ decStr (cx - rx) ++ "," ++ decStr cy
      ++ "a" ++ decStr rx ++ "," ++ decStr ry ++ " 0 1,0 " ++ decStr (2 * rx) ++ ",0"
      ++ "a" ++ decStr rx ++ "," ++ decStr ry ++ " 0 1,0 " ++ decStr (-(2 * rx)) ++ ",0"
      ++ "z")

/-- `"{0} {1}".format(x, y)` for one coordinate pair. -/
def fmtPair (p : String × String) : String := p.1 ++ " " ++ p.2

/-- Python `"L".join(...)` over formatted pairs. -/
def joinL : List (String × String) → String
  | [] => ""
  | [p] => fmtPair p
  | p :: q :: rest => fmtPair p ++ "L" ++ joinL (q :: rest)

/-- The closed-polyline detection of `polyline2pathd`:
`float(points[0][0]) == float(points[-1][0]) and
 float(points[0][1]) == float(points[-1][1])`, with Python's evaluation
order (the `y` coordinates are only coerced when the `x` test succeeds). -/
def closedCheck (pts : List (String × String)) : Except String Bool :=
  match pts.head?, pts.getLast? with
  | some p0, some pn => do
    let x0 ← pyFloat (PyVal.str p0.1)
    let xn ← pyFloat (PyVal.str pn.1)
    if Dec.Eqv x0 xn then do
      let y0 ← pyFloat (PyVal.str p0.2)
      let yn ← pyFloat (PyVal.str pn.2)
      pure (decide (Dec.Eqv y0 yn))
    else pure false
  | _, _ => Except.error "IndexError: list index out of range"

/-- `polyline2pathd(polyline, is_polygon)`.  A string argument is used as the
`points` value directly (NOT scanned in this version of the source): Python
then iterates over its characters, so any nonempty string raises — either an
`IndexError` while probing `points[0][1]` on a one-character "pair", or a
`ValueError` unpacking a single character into `(x, y)`.  A mapping argument
has its `points` attribute scanned into coordinate pairs. -/
def polyline2pathd (polyline : Sum String AttrMap) (is_polygon : Bool) :
    Except String String :=
  match polyline with
  | Sum.inl s =>
    match s.data with
    | [] => Except.ok ""
    | c :: cs => do
      let x0 ← pyFloat (PyVal.str (String.mk [c]))
      let xn ← pyFloat (PyVal.str (String.mk [(c :: cs).getLastD c]))
      if Dec.Eqv x0 xn then Except.error "IndexError: string index out of range"
      else Except.error "ValueError: not enough values to unpack (expected 2, got 1)"
  | Sum.inr m =>
    let pts := coordPairScan ((List.lookup "points" m).getD "")
    if pts.isEmpty then Except.ok ""
    else do
      let closed ← closedCheck pts
      let pts2 := if is_polygon && closed then pts ++ pts.take 1 else pts
      let d := "M" ++ joinL pts2
      pure (if is_polygon || closed then d ++ "z" else d)

/-- `polygon2pathd(polyline)`: delegates to `polyline2pathd` with its
`is_polygon` default `True`. -/
def polygon2pathd (polyline : Sum String AttrMap) : Except String String :=
  polyline2pathd polyline true

/-- `rect2pathd(rect)`. -/
def rect2pathd (rect : AttrMap) : Except String String := do
  let x ← pyFloat (attrOr rect "x" (PyVal.num 0))
  let y ← pyFloat (attrOr rect "y" (PyVal.num 0))
  let w ← pyFloat (attrOr rect "width" (PyVal.num 0))
  let h ← pyFloat (attrOr rect "height" (PyVal.num 0))
  if (List.lookup "rx" rect).isSome || (List.lookup "ry" rect).isSome then
    let rx0 := List.lookup "rx" rect
    let ry0 := List.lookup "ry" rect
    -- `if rx is None: rx = ry or 0.0` (a present-but-empty string is falsy)
    let rx1 : PyVal := match rx0 with
      | some s => PyVal.str s
      | none => match ry0 with
        | some s => if s = "" then PyVal.num 0 else PyVal.str s
        | none => PyVal.num 0
    -- `if ry is None: ry = rx or 0.0` (using the updated rx)
    let ry1 : PyVal := match ry0 with
      | some s => PyVal.str s
      | none => match rx1 with
        | PyVal.str s => if s = "" then PyVal.num 0 else PyVal.str s
        | PyVal.num q => if q.num = 0 then PyVal.num 0 else PyVal.num q
    let rx ← pyFloat rx1
    let ry ← pyFloat ry1
    pure ("M " ++ decStr (x + rx) ++ " " ++ decStr y ++ " "
      ++ "L " ++ decStr (x + w - rx) ++ " " ++ decStr y ++ " "
      ++ "A " ++ decStr rx ++ " " ++ decStr ry ++ " 0 0 1 "
        ++ decStr (x + w) ++ " " ++ decStr (y + ry) ++ " "
      ++ "L " ++ decStr (x + w) ++ " " ++ decStr (y + h - ry) ++ " "
      ++ "A " ++ decStr rx ++ " " ++ decStr ry ++ " 0 0 1 "
        ++ decStr (x + w - rx) ++ " " ++ decStr (y + h) ++ " "
      ++ "L " ++ decStr (x + rx) ++ " " ++ decStr (y + h) ++ " "
      ++ "A " ++ decStr rx ++ " " ++ decStr ry ++ " 0 0 1 "
        ++ decStr x ++ " " ++ decStr (y + h - ry) ++ " "
      ++ "L " ++ decStr x ++ " " ++ decStr (y + ry) ++ " "
      ++ "A " ++ decStr rx ++ " " ++ decStr ry ++ " 0 0 1 "
        ++ decStr (x + rx) ++ " " ++ decStr y ++ " z")
  else
    pure ("M" ++ decStr x ++ " " ++ decStr y
      ++ " L " ++ decStr (x + w) ++ " " ++ decStr y
      ++ " L " ++ decStr (x + w) ++ " " ++ decStr (y + h)
      ++ " L " ++ decStr x ++ " " ++ decStr (y + h) ++ " z")

/-- `line2pathd(l)`: the standalone helper; each endpoint attribute defaults
to the raw string `"0"` and values are reproduced verbatim. -/
def line2pathd (l : AttrMap) : String :=
  "M" ++ (List.lookup "x1" l).getD "0" ++ " " ++ (List.lookup "y1" l).getD "0"
    ++ "L" ++ (List.lookup "x2" l).getD "0" ++ " " ++ (List.lookup "y2" l).getD "0"

/-! ## Document walker and conversion orchestrator -/

/-- The per-kind inclusion flags of `svg2paths`. -/
structure SvgConfig where
  convert_circles_to_paths : Bool
  convert_ellipses_to_paths : Bool
  convert_lines_to_paths : Bool
  convert_polylines_to_paths : Bool
  convert_polygons_to_paths : Bool
  convert_rectangles_to_paths : Bool

/-- The all-true default configuration. -/
def defaultConfig : SvgConfig := ⟨true, true, true, true, true, true⟩

/-- One element of the flattened document:
`doc.getElementsByTagName("*")` yields every element in document order, each
carrying its `dom2dict` attribute mapping. -/
structure SvgElement where
  tagName : String
  attrs : AttrMap

/-- The dispatch body of the walker loop in `svg2paths`: `none` when the
element kind is unmatched or disabled, otherwise the produced d-string or the
exception raised while producing it.  Note the `line` branch performs direct
key lookups (an f-string over `line_data['x1']` etc.), not the defaulting
`line2pathd` helper. -/
def processElement (cfg : SvgConfig) (el : SvgElement) : Option (Except String String) :=
  if el.tagName = "path" then
    some (keyGet el.attrs "d")
  else if el.tagName = "polyline" && cfg.convert_polylines_to_paths then
    some (polyline2pathd (Sum.inr el.attrs) false)
  else if el.tagName = "polygon" && cfg.convert_polygons_to_paths then
    some (polygon2pathd (Sum.inr el.attrs))
  else if el.tagName = "line" && cfg.convert_lines_to_paths then
    some (do
      let x1 ← keyGet el.attrs "x1"
      let y1 ← keyGet el.attrs "y1"
      let x2 ← keyGet el.attrs "x2"
      let y2 ← keyGet el.attrs "y2"
      pure ("M" ++ x1 ++ " " ++ y1 ++ " L" ++ x2 ++ " " ++ y2))
  else if el.tagName = "ellipse" && cfg.convert_ellipses_to_paths then
    some (ellipse2pathd el.attrs false)
  else if el.tagName = "circle" && cfg.convert_circles_to_paths then
    some (ellipse2pathd el.attrs false)
  else if el.tagName = "rect" && cfg.convert_rectangles_to_paths then
    some (rect2pathd el.attrs)
  else
    none

/-- The walker loop: visits elements in document order, appending the
produced d-string and the element's attribute mapping to two parallel lists;
any exception aborts the whole call. -/
def walkSvgElements (cfg : SvgConfig) : List SvgElement → Except String (List String × List AttrMap)
  | [] => Except.ok ([], [])
  | el :: rest =>
    match processElement cfg el with
    | none => walkSvgElements cfg rest
    | some (Except.error e) => Except.error e
    | some (Except.ok d) =>
      match walkSvgElements cfg rest with
      | Except.error e => Except.error e
      | Except.ok (ds, ats) => Except.ok (d :: ds, el.attrs :: ats)

/-- `svg2paths`: runs the walker, optionally extracts the root `svg`
element's attributes (the first element with that tag; `IndexError` when
there is none), and maps the external path parser `parsePath` over the
collected d-strings.  The external parser is a parameter: the claims only
depend on it being applied pointwise. -/
def svg2paths {P : Type} (parsePath : String → P) (return_svg_attributes : Bool)
    (cfg : SvgConfig) (doc : List SvgElement) :
    Except String (List P × List AttrMap × Option AttrMap) := do
  let pair ← walkSvgElements cfg doc
  if return_svg_attributes then
    match doc.find? (fun el => el.tagName == "svg") with
    | none => Except.error "IndexError: list index out of range"
    | some svgEl => Except.ok (pair.1.map parsePath, pair.2, some svgEl.attrs)
  else
    Except.ok (pair.1.map parsePath, pair.2, none)

/-- `svg2paths2`: identical to `svg2paths` with `return_svg_attributes`
defaulting to `True`; the flag is kept explicit here, the delegation is
verbatim. -/
def svg2paths2 {P : Type} (parsePath : String → P) (return_svg_attributes : Bool)
    (cfg : SvgConfig) (doc : List SvgElement) :
    Except String (List P × List AttrMap × Option AttrMap) :=
  svg2paths parsePath return_svg_attributes cfg doc

/-- `svgstr2paths`: wraps the string into a StringIO object and delegates to
`svg2paths`; on the embedded document model the delegation is verbatim. -/
def svgstr2paths {P : Type} (parsePath : String → P) (return_svg_attributes : Bool)
    (cfg : SvgConfig) (doc : List SvgElement) :
    Except String (List P × List AttrMap × Option AttrMap) :=
  svg2paths parsePath return_svg_attributes cfg doc

/-- Characters that can occur in a scanned number token. -/
def numChar (c : Char) : Bool :=
  c.isDigit || c = '+' || c = '-' || c = '.' || c = 'e' || c = 'E'

/-- Number of `L` command letters in a d-string. -/
def countL (s : String) : Nat := s.data.count 'L'

/-- The arc-mode ellipse d-string as the spec describes it: move to
(cx − rx, cy); two relative elliptical-arc commands with radii (rx, ry),
rotation 0, large-arc-flag 1, sweep-flag 0, displacements +2rx and −2rx;
closed with `z`. -/
def specArcEllipseD (cx cy rx ry : Dec) : String :=
  "M" ++ decStr (cx - rx) ++ "," ++ decStr cy
    ++ "a" ++ decStr rx ++ "," ++ decStr ry ++ " 0 1,0 " ++ decStr (2 * rx) ++ ",0"
    ++ "a" ++ decStr rx ++ "," ++ decStr ry ++ " 0 1,0 " ++ decStr (-(2 * rx)) ++ ",0"
    ++ "z"

/-- The cubic-mode ellipse d-string as the spec describes it: move to the
rightmost point (cx + rx, cy), then four cubic commands tracing the
quadrants clockwise (bottom-right, bottom-left, top-left, top-right) with
per-axis control-point offsets rx·κ and ry·κ for κ = 0.552284, the fourth
ending back at (cx + rx, cy); closed with `z`. -/
def specCubicEllipseD (cx cy rx ry : Dec) : String :=
  let kappa : Dec := ⟨552284, 6⟩
  let rxKappa := rx * kappa
  let ryKappa := ry * kappa
  "M" ++ decStr (cx + rx) ++ " " ++ decStr cy
    ++ "C" ++ decStr (cx + rx) ++ " " ++ decStr (cy + ryKappa) ++ " "
      ++ decStr (cx + rxKappa) ++ " " ++ decStr (cy + ry) ++ " "
      ++ decStr cx ++ " " ++ decStr (cy + ry)
    ++ "C" ++ decStr (cx - rxKappa) ++ " " ++ decStr (cy + ry) ++ " "
      ++ decStr (cx - rx) ++ " " ++ decStr (cy + ryKappa) ++ " "
      ++ decStr (cx - rx) ++ " " ++ decStr cy
    ++ "C" ++ decStr (cx - rx) ++ " " ++ decStr (cy - ryKappa) ++ " "
      ++ decStr (cx - rxKappa) ++ " " ++ decStr (cy - ry) ++ " "
      ++ decStr cx ++ " " ++ decStr (cy - ry)
    ++ "C" ++ decStr (cx + rxKappa) ++ " " ++ decStr (cy - ry) ++ " "
      ++ decStr (cx + rx) ++ " " ++ decStr (cy - ryKappa) ++ " "
      ++ decStr (cx + rx) ++ " " ++ decStr cy
    ++ "z"

/-! ## Helper lemmas -/

namespace Dec
theorem pow10_ne_zero (e : Nat) : ((10 : ℚ) ^ e) ≠ 0 := by positivity

theorem eqv_iff_val {a b : Dec} : Eqv a b ↔ a.val = b.val := by
  unfold Eqv val
  rw [div_eq_div_iff (pow10_ne_zero _) (pow10_ne_zero _)]
  constructor
  · intro h
    exact_mod_cast congrArg (fun z : Int => (z : ℚ)) h
  · intro h
    exact_mod_cast h

theorem val_add (a b : Dec) : (a + b).val = a.val + b.val := by
  show (add a b).val = _
  unfold add val
  rw [div_add_div _ _ (pow10_ne_zero _) (pow10_ne_zero _), ← pow_add]
  push_cast
  ring_nf

theorem val_neg (a : Dec) : (-a).val = -a.val := by
  show (neg a).val = _
  unfold neg val
  push_cast
  ring

theorem val_sub (a b : Dec) : (a - b).val = a.val - b.val := by
  show ((a.add b.neg)).val = _
  have h1 := val_add a (-b)
  have h2 := val_neg b
  show (a + (-b)).val = _
  rw [h1, h2]
  ring

theorem val_mul (a b : Dec) : (a * b).val = a.val * b.val := by
  show (mul a b).val = _
  unfold mul val
  rw [div_mul_div_comm, ← pow_add]
  push_cast
  ring_nf

theorem val_ofNat (n : Nat) : (OfNat.ofNat n : Dec).val = n := by
  show val ⟨n, 0⟩ = _
  unfold val
  norm_num

end Dec

theorem mem_catMap {α β : Type} {f : α → List β} {y : β} :
    ∀ {L : List α}, y ∈ catMap f L ↔ ∃ x, x ∈ L ∧ y ∈ f x := by
  intro L
  induction L with
  | nil => simp [catMap]
  | cons x rest ih =>
    simp only [catMap, List.mem_append, ih, List.mem_cons]
    constructor
    · rintro (h | ⟨x2, hx2, hy⟩)
      · exact ⟨x, Or.inl rfl, h⟩
      · exact ⟨x2, Or.inr hx2, hy⟩
    · rintro ⟨x2, hx2 | hx2, hy⟩
      · subst hx2; exact Or.inl hy
      · exact Or.inr ⟨x2, hx2, hy⟩

example : coordPairScan "0,0 1-2 3,3" = [("0", "0"), ("1", "-2"), ("3", "3")] := by decide

example : parseFloat "1.0" = some ⟨10, 1⟩ := by decide

example : parseFloat "1" = some ⟨1, 0⟩ := by decide

example : Dec.Eqv ⟨10, 1⟩ ⟨1, 0⟩ := by decide

example : parseFloat "." = none := by decide

example : parseFloat "-2.5e-1" = some ⟨-25, 2⟩ := by decide

example : decStr ⟨5, 0⟩ = "5.0" := by decide

example : decStr ⟨-105, 1⟩ = "-10.5" := by decide

example : decStr ⟨1000, 2⟩ = "10.0" := by decide

example : polygon2pathd (Sum.inr [("points", "0,0 1,0 0,1")]) = Except.ok "M0 0L1 0L0 1z" := by decide

example : polygon2pathd (Sum.inr [("points", "0,0 1,0 0,0")]) =
    Except.ok "M0 0L1 0L0 0L0 0z" := by decide

example : polyline2pathd (Sum.inr [("points", "1.0,2 3,4 1,2")]) false =
    Except.ok "M1.0 2L3 4L1 2z" := by decide

example : rect2pathd [("x", "0"), ("y", "0"), ("width", "10"), ("height", "10")] =
    Except.ok "M0.0 0.0 L 10.0 0.0 L 10.0 10.0 L 0.0 10.0 z" := by decide

example : ellipse2pathd [("r", "5")] false =
    Except.ok "M-5.0,0.0a5.0,5.0 0 1,0 10.0,0a5.0,5.0 0 1,0 -10.0,0z" := by decide

@[simp] theorem exceptBind_ok {ε α β : Type} (x : α) (f : α → Except ε β) :
    (Except.ok x >>= f : Except ε β) = f x := rfl

@[simp] theorem exceptBind_error {ε α β : Type} (e : ε) (f : α → Except ε β) :
    ((Except.error e : Except ε α) >>= f : Except ε β) = Except.error e := rfl

@[simp] theorem exceptPure_eq {ε α : Type} (x : α) : (pure x : Except ε α) = Except.ok x := rfl

theorem starSplitsAsc_all {p : Char → Bool} :
    ∀ {l pre rest : List Char}, (pre, rest) ∈ starSplitsAsc p l → pre.all p = true := by
  intro l
  induction l with
  | nil =>
    intro pre rest h
    simp only [starSplitsAsc, List.mem_singleton, Prod.mk.injEq] at h
    rw [h.1]
    rfl
  | cons c cs ih =>
    intro pre rest h
    simp only [starSplitsAsc, List.mem_cons] at h
    rcases h with h | h
    · rw [Prod.mk.injEq] at h
      rw [h.1]
      rfl
    · by_cases hp : p c
      · rw [if_pos hp, List.mem_map] at h
        obtain ⟨q, hq, he⟩ := h
        rw [Prod.mk.injEq] at he
        rw [← he.1, List.all_cons, hp]
        simpa using ih hq
      · rw [if_neg hp] at h
        simp at h

theorem starSplits_all {p : Char → Bool} {l pre rest : List Char}
    (h : (pre, rest) ∈ starSplits p l) : pre.all p = true := by
  rw [starSplits, List.mem_reverse] at h
  exact starSplitsAsc_all h

theorem oneSplit_all {p : Char → Bool} {l pre rest : List Char}
    (h : (pre, rest) ∈ oneSplit p l) : ∃ c, pre = [c] ∧ p c = true := by
  match l with
  | [] => simp [oneSplit] at h
  | c :: cs =>
    by_cases hp : p c
    · rw [oneSplit, if_pos hp, List.mem_singleton, Prod.mk.injEq] at h
      exact ⟨c, h.1, hp⟩
    · rw [oneSplit, if_neg hp] at h
      simp at h

theorem optSplit_all {p : Char → Bool} {l pre rest : List Char}
    (h : (pre, rest) ∈ optSplit p l) : pre = [] ∨ ∃ c, pre = [c] ∧ p c = true := by
  match l with
  | [] =>
    simp only [optSplit, List.mem_singleton, Prod.mk.injEq] at h
    exact Or.inl h.1
  | c :: cs =>
    by_cases hp : p c
    · rw [optSplit, if_pos hp] at h
      rcases List.mem_cons.mp h with he | he
      · rw [Prod.mk.injEq] at he
        exact Or.inr ⟨c, he.1, hp⟩
      · rw [List.mem_singleton, Prod.mk.injEq] at he
        exact Or.inl he.1
    · rw [optSplit, if_neg hp, List.mem_singleton, Prod.mk.injEq] at h
      exact Or.inl h.1

theorem seqS_mem {a b : Splits} {l pre rest : List Char}
    (h : (pre, rest) ∈ seqS a b l) :
    ∃ p1 r1 p2, (p1, r1) ∈ a l ∧ (p2, rest) ∈ b r1 ∧ pre = p1 ++ p2 := by
  rw [seqS, mem_catMap] at h
  obtain ⟨p, hp, h2⟩ := h
  rw [List.mem_map] at h2
  obtain ⟨q, hq, he⟩ := h2
  rw [Prod.mk.injEq] at he
  refine ⟨p.1, p.2, q.1, hp, ?_, he.1.symm⟩
  rw [← he.2]
  exact hq

theorem all_impl {p q : Char → Bool} (hmono : ∀ c, p c = true → q c = true) :
    ∀ {l : List Char}, l.all p = true → l.all q = true := by
  intro l h
  rw [List.all_eq_true] at h ⊢
  exact fun c hc => hmono c (h c hc)

theorem digit_numChar : ∀ c, c.isDigit = true → numChar c = true := by
  intro c h
  simp [numChar, h]

theorem mantissaCore_all {l pre rest : List Char}
    (h : (pre, rest) ∈ mantissaCore l) : pre.all numChar = true := by
  obtain ⟨p1, r1, p2, h1, h2, he⟩ := seqS_mem h
  obtain ⟨q1, s1, q2, hq1, hq2, he2⟩ := seqS_mem h2
  subst he
  subst he2
  rw [List.all_append, List.all_append, Bool.and_eq_true, Bool.and_eq_true]
  refine ⟨all_impl digit_numChar (starSplits_all h1), ?_, all_impl digit_numChar (starSplits_all hq2)⟩
  obtain ⟨c, hc, hdc⟩ := oneSplit_all hq1
  rw [hc, List.all_cons]
  rw [isDotOrDigit] at hdc
  rcases Bool.or_eq_true _ _ |>.mp hdc with hd | hd
  · simp [numChar, hd]
  · simp [numChar, hd]

theorem digits1_all {l pre rest : List Char}
    (h : (pre, rest) ∈ digits1 l) : pre.all numChar = true := by
  rw [digits1, List.mem_filter] at h
  exact all_impl digit_numChar (starSplits_all h.1)

theorem expTail_all {l pre rest : List Char}
    (h : (pre, rest) ∈ expTail l) : pre.all numChar = true := by
  obtain ⟨p1, r1, p2, h1, h2, he⟩ := seqS_mem h
  obtain ⟨q1, s1, q2, hq1, hq2, he2⟩ := seqS_mem h2
  subst he
  subst he2
  rw [List.all_append, List.all_append, Bool.and_eq_true, Bool.and_eq_true]
  refine ⟨?_, ?_, digits1_all hq2⟩
  · obtain ⟨c, hc, hdc⟩ := oneSplit_all h1
    rw [hc, List.all_cons]
    rw [isEChar] at hdc
    rcases Bool.or_eq_true _ _ |>.mp hdc with hd | hd
    · simp [numChar, hd]
    · simp [numChar, hd]
  · rcases optSplit_all hq1 with hq | ⟨c, hc, hdc⟩
    · rw [hq]
      rfl
    · rw [hc, List.all_cons]
      rw [isSignChar] at hdc
      rcases Bool.or_eq_true _ _ |>.mp hdc with hd | hd
      · simp [numChar, hd]
      · simp [numChar, hd]

theorem numToken_all {l pre rest : List Char}
    (h : (pre, rest) ∈ numToken l) : pre.all numChar = true := by
  obtain ⟨p1, r1, p2, h1, h2, he⟩ := seqS_mem h
  subst he
  rw [List.all_append, Bool.and_eq_true]
  constructor
  · rcases optSplit_all h1 with hq | ⟨c, hc, hdc⟩
    · rw [hq]
      rfl
    · rw [hc, List.all_cons]
      rw [isSignChar] at hdc
      rcases Bool.or_eq_true _ _ |>.mp hdc with hd | hd
      · simp [numChar, hd]
      · simp [numChar, hd]
  · rcases List.mem_append.mp h2 with hm | hm
    · obtain ⟨q1, s1, q2, hq1, hq2, he2⟩ := seqS_mem hm
      subst he2
      rw [List.all_append, Bool.and_eq_true]
      exact ⟨mantissaCore_all hq1, expTail_all hq2⟩
    · exact mantissaCore_all hm

theorem coordPairMatch_groups {l g1 g2 r : List Char}
    (h : ((g1, g2), r) ∈ coordPairMatch l) :
    g1.all numChar = true ∧ g2.all numChar = true := by
  rw [coordPairMatch, mem_catMap] at h
  obtain ⟨p, hp, h2⟩ := h
  rw [mem_catMap] at h2
  obtain ⟨q, hq, h3⟩ := h2
  rw [List.mem_map] at h3
  obtain ⟨r2, hr2, he⟩ := h3
  rw [Prod.mk.injEq, Prod.mk.injEq] at he
  rw [← he.1.1, ← he.1.2]
  exact ⟨numToken_all hp, numToken_all hr2⟩

theorem coordScanAux_numChar :
    ∀ (fuel : Nat) (l : List Char) (a b : String),
      (a, b) ∈ coordScanAux fuel l →
      a.data.all numChar = true ∧ b.data.all numChar = true := by
  intro fuel
  induction fuel with
  | zero =>
    intro l a b h
    simp [coordScanAux] at h
  | succ n ih =>
    intro l a b h
    match l with
    | [] => simp [coordScanAux] at h
    | c :: rest =>
      rw [coordScanAux] at h
      cases hm : coordPairMatch (c :: rest) with
      | nil =>
        rw [hm] at h
        exact ih rest a b h
      | cons hd tl =>
        obtain ⟨⟨g1, g2⟩, r⟩ := hd
        rw [hm] at h
        rcases List.mem_cons.mp h with he | hmem
        · have hg : ((g1, g2), r) ∈ coordPairMatch (c :: rest) := by
            rw [hm]
            exact List.mem_cons_self _ _
          have := coordPairMatch_groups hg
          rw [Prod.mk.injEq] at he
          rw [he.1, he.2]
          exact this
        · exact ih r a b hmem

theorem coordPairScan_numChar {s : String} {a b : String}
    (h : (a, b) ∈ coordPairScan s) :
    a.data.all numChar = true ∧ b.data.all numChar = true :=
  coordScanAux_numChar _ _ a b h

theorem countL_append (s t : String) : countL (s ++ t) = countL s + countL t := by
  unfold countL
  rw [String.data_append, List.count_append]

theorem countL_eq_zero_of_numChar {t : String} (h : t.data.all numChar = true) :
    countL t = 0 := by
  unfold countL
  rw [List.count_eq_zero]
  intro hmem
  have hL := List.all_eq_true.mp h _ hmem
  exact absurd hL (by decide)

theorem countL_fmtPair {p : String × String}
    (h1 : p.1.data.all numChar = true) (h2 : p.2.data.all numChar = true) :
    countL (fmtPair p) = 0 := by
  unfold fmtPair
  rw [countL_append, countL_append, countL_eq_zero_of_numChar h1,
    countL_eq_zero_of_numChar h2]
  rfl

theorem countL_joinL :
    ∀ (pts : List (String × String)),
      (∀ p ∈ pts, countL (fmtPair p) = 0) →
      countL (joinL pts) = pts.length - 1 := by
  intro pts
  induction pts with
  | nil =>
    intro _
    rfl
  | cons p rest ih =>
    intro hz
    match rest with
    | [] =>
      rw [joinL, hz p (List.mem_cons_self _ _)]
      rfl
    | q :: rest2 =>
      rw [joinL, countL_append, countL_append,
        hz p (List.mem_cons_self _ _),
        ih (fun r hr => hz r (List.mem_cons_of_mem _ hr))]
      simp [countL]
      omega

theorem getLast_data_z (s : String) : (s ++ "z").data.getLast? = some 'z' := by
  rw [String.data_append]
  exact List.getLast?_concat _

/-- Evaluation of the closed-polyline detection when the relevant coordinate
strings all coerce to floats. -/
theorem closedCheck_eval {pts : List (String × String)} {p0 pn : String × String}
    {x0 y0 xn yn : Dec}
    (h0 : pts.head? = some p0) (hn : pts.getLast? = some pn)
    (hx0 : parseFloat p0.1 = some x0) (hy0 : parseFloat p0.2 = some y0)
    (hxn : parseFloat pn.1 = some xn) (hyn : parseFloat pn.2 = some yn) :
    closedCheck pts = Except.ok (decide (Dec.Eqv x0 xn ∧ Dec.Eqv y0 yn)) := by
  unfold closedCheck
  rw [h0, hn]
  simp only [pyFloat, hx0, hy0, hxn, hyn, exceptBind_ok, exceptPure_eq]
  by_cases hEq : Dec.Eqv x0 xn
  · rw [if_pos hEq]
    simp [hEq]
  · rw [if_neg hEq]
    simp [hEq]

/-- The walker loop, on success, returns lists of equal length whose entries
at each position come from a single document element. -/
theorem walkSvgElements_align (cfg : SvgConfig) :
    ∀ (doc : List SvgElement) (ds : List String) (ats : List AttrMap),
      walkSvgElements cfg doc = Except.ok (ds, ats) →
      ds.length = ats.length ∧
        ∀ i (hd : i < ds.length) (ha : i < ats.length),
          ∃ el, el ∈ doc ∧ processElement cfg el = some (Except.ok ds[i]) ∧
            ats[i] = el.attrs := by
  intro doc
  induction doc with
  | nil =>
    intro ds ats h
    rw [walkSvgElements] at h
    injection h with h2
    rw [Prod.mk.injEq] at h2
    obtain ⟨h3, h4⟩ := h2
    subst h3
    subst h4
    refine ⟨rfl, ?_⟩
    intro i hd
    simp at hd
  | cons el rest ih =>
    intro ds ats h
    rw [walkSvgElements] at h
    cases hpe : processElement cfg el with
    | none =>
      rw [hpe] at h
      obtain ⟨hlen, hidx⟩ := ih ds ats h
      refine ⟨hlen, ?_⟩
      intro i hd ha
      obtain ⟨el2, hm, hp, hat⟩ := hidx i hd ha
      exact ⟨el2, List.mem_cons_of_mem _ hm, hp, hat⟩
    | some res =>
      cases res with
      | error e =>
        rw [hpe] at h
        cases h
      | ok d =>
        rw [hpe] at h
        cases hw : walkSvgElements cfg rest with
        | error e =>
          rw [hw] at h
          cases h
        | ok pair =>
          obtain ⟨ds2, ats2⟩ := pair
          rw [hw] at h
          injection h with h2
          rw [Prod.mk.injEq] at h2
          obtain ⟨h3, h4⟩ := h2
          subst h3
          subst h4
          obtain ⟨hlen, hidx⟩ := ih ds2 ats2 hw
          refine ⟨by simp [hlen], ?_⟩
          intro i hd ha
          match i with
          | 0 => exact ⟨el, List.mem_cons_self _ _, by simpa using hpe, rfl⟩
          | j + 1 =>
            obtain ⟨el2, hm, hp, hat⟩ := hidx j (by simpa using hd) (by simpa using ha)
            exact ⟨el2, List.mem_cons_of_mem _ hm, by simpa using hp, by simpa using hat⟩

/-- If some element of the document raises during processing, the whole walk
raises (possibly with an earlier element's exception). -/
theorem walkSvgElements_error (cfg : SvgConfig) :
    ∀ (doc : List SvgElement) (el : SvgElement) (e : String),
      el ∈ doc → processElement cfg el = some (Except.error e) →
      ∃ e2, walkSvgElements cfg doc = Except.error e2 := by
  intro doc
  induction doc with
  | nil =>
    intro el e hm
    simp at hm
  | cons hd rest ih =>
    intro el e hm hpe
    rcases List.mem_cons.mp hm with he | hmem
    · subst he
      rw [walkSvgElements, hpe]
      exact ⟨e, rfl⟩
    · rw [walkSvgElements]
      cases hph : processElement cfg hd with
      | none => exact ih el e hmem hpe
      | some res =>
        cases res with
        | error e0 => exact ⟨e0, rfl⟩
        | ok d =>
          obtain ⟨e2, hw⟩ := ih el e hmem hpe
          rw [hw]
          exact ⟨e2, rfl⟩

/-! ## Claim theorems -/

/-- C9: for every input (a raw points string or an attribute mapping),
`polygon2pathd` returns exactly the result of `polyline2pathd` on the same
input with `is_polygon = True` (the delegation is definitional in the
source). -/
theorem polygon2pathd_refines_polyline :
    ∀ p : Sum String AttrMap, polygon2pathd p = polyline2pathd p true :=
  fun _ => rfl

/-- C8: the separator of the coordinate-pair pattern matches zero-width (via
lookahead) exactly when the next character is a minus sign and no comma or
whitespace intervenes, so a minus immediately after a number starts the next
token; in particular `"0,0 1-2 3,3"` scans to the pairs
`[(0,0), (1,-2), (3,3)]`. -/
theorem coord_scan_minus_lookahead :
    (∀ l : List Char, pairSep ('-' :: l) = [([], '-' :: l)]) ∧
    coordPairScan "0,0 1-2 3,3" = [("0", "0"), ("1", "-2"), ("3", "3")] ∧
    (coordPairScan "0,0 1-2 3,3").map (fun p => (parseFloat p.1, parseFloat p.2)) =
      [(some ⟨0, 0⟩, some ⟨0, 0⟩), (some ⟨1, 0⟩, some ⟨-2, 0⟩),
        (some ⟨3, 0⟩, some ⟨3, 0⟩)] := by
  refine ⟨fun l => rfl, by decide, by decide⟩

/-- C3 counterexample: a `line` element with no attributes.  The claim says
the document walker defaults each missing endpoint attribute to `"0"` and
emits `M0 0 L0 0`; in fact the walker performs direct key lookups and the
element's processing raises `KeyError: x1`.  Only the standalone (unused by
the walker) helper `line2pathd` applies the `"0"` defaults. -/
theorem line_walker_defaults_cex :
    processElement defaultConfig ⟨"line", []⟩ = some (Except.error "KeyError: x1") ∧
    line2pathd [] = "M0 0L0 0" := by
  refine ⟨by decide, by decide⟩

/-- C3 amended: for every line element processed by the document walker, the
emitted path-description string is `M{x1} {y1} L{x2} {y2}` with the four
attribute values reproduced verbatim, but the walker does NOT default absent
attributes: a missing `x1` makes processing fail with a key-lookup error.
The `"0"` defaults exist only in the standalone `line2pathd` helper, which
the walker does not call. -/
theorem line_walker_verbatim :
    (∀ (cfg : SvgConfig) (attrs : AttrMap) (x1 y1 x2 y2 : String),
      cfg.convert_lines_to_paths = true →
      List.lookup "x1" attrs = some x1 → List.lookup "y1" attrs = some y1 →
      List.lookup "x2" attrs = some x2 → List.lookup "y2" attrs = some y2 →
      processElement cfg ⟨"line", attrs⟩ =
        some (Except.ok ("M" ++ x1 ++ " " ++ y1 ++ " L" ++ x2 ++ " " ++ y2))) ∧
    (∀ (cfg : SvgConfig) (attrs : AttrMap),
      cfg.convert_lines_to_paths = true →
      List.lookup "x1" attrs = none →
      processElement cfg ⟨"line", attrs⟩ = some (Except.error "KeyError: x1")) ∧
    (∀ (l : AttrMap) (x1 y1 x2 y2 : String),
      List.lookup "x1" l = some x1 → List.lookup "y1" l = some y1 →
      List.lookup "x2" l = some x2 → List.lookup "y2" l = some y2 →
      line2pathd l = "M" ++ x1 ++ " " ++ y1 ++ "L" ++ x2 ++ " " ++ y2) := by
  refine ⟨?_, ?_, ?_⟩
  · intro cfg attrs x1 y1 x2 y2 hcfg h1 h2 h3 h4
    simp [processElement, keyGet, hcfg, h1, h2, h3, h4]
  · intro cfg attrs hcfg h1
    simp [processElement, keyGet, hcfg, h1]
  · intro l x1 y1 x2 y2 h1 h2 h3 h4
    simp [line2pathd, h1, h2, h3, h4]

/-- C3 amended witness: a concrete line element with all four endpoint
attributes present is emitted verbatim; one with `x1` missing raises. -/
theorem line_walker_verbatim_witness :
    processElement defaultConfig
        ⟨"line", [("x1", "1"), ("y1", "2"), ("x2", "3"), ("y2", "4")]⟩ =
      some (Except.ok ("M" ++ "1" ++ " " ++ "2" ++ " L" ++ "3" ++ " " ++ "4")) ∧
    processElement defaultConfig ⟨"line", [("y1", "2")]⟩ =
      some (Except.error "KeyError: x1") ∧
    line2pathd [("x1", "1"), ("y1", "2"), ("x2", "3"), ("y2", "4")] =
      "M" ++ "1" ++ " " ++ "2" ++ "L" ++ "3" ++ " " ++ "4" :=
  ⟨line_walker_verbatim.1 defaultConfig _ "1" "2" "3" "4" rfl rfl rfl rfl rfl,
    line_walker_verbatim.2.1 defaultConfig _ rfl rfl,
    line_walker_verbatim.2.2 _ "1" "2" "3" "4" rfl rfl rfl rfl⟩

/-- C10: a `path` element without a `d` attribute makes the walker's direct
key lookup raise, so the whole conversion call fails with a key-lookup error
rather than skipping the element or substituting an empty string — even
though the standalone `path2pathd` helper defaults a missing `d` to `""`. -/
theorem path_missing_d_fails :
    (∀ (cfg : SvgConfig) (attrs : AttrMap), List.lookup "d" attrs = none →
      processElement cfg ⟨"path", attrs⟩ = some (Except.error "KeyError: d")) ∧
    (∀ (P : Type) (f : String → P) (flag : Bool) (cfg : SvgConfig)
        (doc : List SvgElement) (el : SvgElement),
      el ∈ doc → el.tagName = "path" → List.lookup "d" el.attrs = none →
      ∀ res, svg2paths f flag cfg doc ≠ Except.ok res) ∧
    (∀ attrs : AttrMap, List.lookup "d" attrs = none → path2pathd attrs = "") := by
  refine ⟨?_, ?_, ?_⟩
  · intro cfg attrs h
    simp [processElement, keyGet, h]
  · intro P f flag cfg doc el hmem htag hd res hok
    have hpe : processElement cfg el = some (Except.error "KeyError: d") := by
      obtain ⟨tag, attrs⟩ := el
      simp at htag
      subst htag
      simp [processElement, keyGet, hd]
    obtain ⟨e2, hw⟩ := walkSvgElements_error cfg doc el "KeyError: d" hmem hpe
    rw [svg2paths, hw] at hok
    cases hok
  · intro attrs h
    simp [path2pathd, h]

/-- C10 witness: a concrete document whose only element is a `path` without
`d`; processing it yields the key-lookup error, the conversion cannot
succeed, and the standalone helper defaults to the empty string. -/
theorem path_missing_d_fails_witness :
    processElement defaultConfig ⟨"path", [("style", "fill:none")]⟩ =
      some (Except.error "KeyError: d") ∧
    svg2paths String.length false defaultConfig [⟨"path", [("style", "fill:none")]⟩] ≠
      Except.ok ([], [], none) ∧
    path2pathd [("style", "fill:none")] = "" :=
  ⟨path_missing_d_fails.1 defaultConfig _ rfl,
    path_missing_d_fails.2.1 Nat String.length false defaultConfig
      [⟨"path", [("style", "fill:none")]⟩] ⟨"path", [("style", "fill:none")]⟩
      (List.mem_cons_self _ _) rfl rfl ([], [], none),
    path_missing_d_fails.2.2 _ rfl⟩

/-- C1: for every successful conversion call (either flag value of
`return_svg_attributes`, any configuration; `svg2paths2` and `svgstr2paths`
delegate verbatim), the structured-path list and the attribute-mapping list
have identical length, and the path at position `i` is the parse of the
d-string produced from the same document element whose attribute mapping
is at position `i`. -/
theorem svg2paths_alignment :
    (∀ (P : Type) (f : String → P) (flag : Bool) (cfg : SvgConfig)
        (doc : List SvgElement) (paths : List P) (ats : List AttrMap)
        (extra : Option AttrMap),
      svg2paths f flag cfg doc = Except.ok (paths, ats, extra) →
      paths.length = ats.length ∧
        ∀ i (hp : i < paths.length) (ha : i < ats.length),
          ∃ el, el ∈ doc ∧ ∃ d, processElement cfg el = some (Except.ok d) ∧
            ats[i] = el.attrs ∧ paths[i] = f d) ∧
    (∀ (P : Type) (f : String → P) (flag : Bool) (cfg : SvgConfig)
        (doc : List SvgElement),
      svg2paths2 f flag cfg doc = svg2paths f flag cfg doc ∧
      svgstr2paths f flag cfg doc = svg2paths f flag cfg doc) := by
  constructor
  · intro P f flag cfg doc paths ats extra h
    rw [svg2paths] at h
    cases hw : walkSvgElements cfg doc with
    | error e =>
      rw [hw] at h
      cases h
    | ok pair =>
      obtain ⟨ds, ats2⟩ := pair
      rw [hw] at h
      have hkey : paths = ds.map f ∧ ats = ats2 := by
        cases flag with
        | false =>
          simp only [exceptBind_ok] at h
          rw [if_neg (by simp)] at h
          injection h with h2
          rw [Prod.mk.injEq, Prod.mk.injEq] at h2
          exact ⟨h2.1.symm, h2.2.1.symm⟩
        | true =>
          simp only [exceptBind_ok] at h
          rw [if_pos trivial] at h
          cases hf : List.find? (fun el => el.tagName == "svg") doc with
          | none =>
            rw [hf] at h
            cases h
          | some svgEl =>
            rw [hf] at h
            injection h with h2
            rw [Prod.mk.injEq, Prod.mk.injEq] at h2
            exact ⟨h2.1.symm, h2.2.1.symm⟩
      obtain ⟨hpaths, hats⟩ := hkey
      subst hpaths
      subst hats
      obtain ⟨hlen, hidx⟩ := walkSvgElements_align cfg doc ds ats hw
      refine ⟨by simpa using hlen, ?_⟩
      intro i hp ha
      have hdi : i < ds.length := by simpa using hp
      obtain ⟨el, hmem, hpe, hat⟩ := hidx i hdi ha
      exact ⟨el, hmem, ds[i], hpe, hat, by simp⟩
  · intro P f flag cfg doc
    exact ⟨rfl, rfl⟩

/-- C1 witness: a concrete two-element document (the root `svg` and a
`rect`) converted with `return_svg_attributes = true`; the returned lists
align positionally. -/
theorem svg2paths_alignment_witness :
    ([String.length "M0.0 0.0 L 10.0 0.0 L 10.0 10.0 L 0.0 10.0 z"].length =
      ([[("x", "0"), ("y", "0"), ("width", "10"), ("height", "10")]] : List AttrMap).length) ∧
    (∃ el, el ∈ [(⟨"svg", [("width", "100")]⟩ : SvgElement),
        ⟨"rect", [("x", "0"), ("y", "0"), ("width", "10"), ("height", "10")]⟩] ∧
      ∃ d, processElement defaultConfig el = some (Except.ok d) ∧
        (([[("x", "0"), ("y", "0"), ("width", "10"), ("height", "10")]] : List AttrMap))[0] = el.attrs ∧
        ([String.length "M0.0 0.0 L 10.0 0.0 L 10.0 10.0 L 0.0 10.0 z"])[0] = String.length d) := by
  have h := svg2paths_alignment.1 Nat String.length true defaultConfig
    [⟨"svg", [("width", "100")]⟩,
      ⟨"rect", [("x", "0"), ("y", "0"), ("width", "10"), ("height", "10")]⟩]
    [String.length "M0.0 0.0 L 10.0 0.0 L 10.0 10.0 L 0.0 10.0 z"]
    [[("x", "0"), ("y", "0"), ("width", "10"), ("height", "10")]]
    (some [("width", "100")])
    (by decide)
  exact ⟨h.1, h.2 0 (by decide) (by decide)⟩

/-- Full evaluation of the mapping branch of `polyline2pathd` when the first
and last scanned pairs coerce to floats. -/
theorem polyline2pathd_dict_eval {m : AttrMap} {pts : List (String × String)}
    {p0 pn : String × String} {x0 y0 xn yn : Dec} (is_polygon : Bool)
    (hscan : coordPairScan ((List.lookup "points" m).getD "") = pts)
    (h0 : pts.head? = some p0) (hn : pts.getLast? = some pn)
    (hx0 : parseFloat p0.1 = some x0) (hy0 : parseFloat p0.2 = some y0)
    (hxn : parseFloat pn.1 = some xn) (hyn : parseFloat pn.2 = some yn) :
    polyline2pathd (Sum.inr m) is_polygon =
      Except.ok
        (if is_polygon || decide (Dec.Eqv x0 xn ∧ Dec.Eqv y0 yn) then
          ("M" ++ joinL
            (if is_polygon && decide (Dec.Eqv x0 xn ∧ Dec.Eqv y0 yn) then
              pts ++ pts.take 1
            else pts)) ++ "z"
        else
          "M" ++ joinL
            (if is_polygon && decide (Dec.Eqv x0 xn ∧ Dec.Eqv y0 yn) then
              pts ++ pts.take 1
            else pts)) := by
  have hne : pts.isEmpty = false := by
    cases pts with
    | nil => cases h0
    | cons a l => rfl
  simp only [polyline2pathd, hscan, hne, Bool.false_eq_true, if_false,
    closedCheck_eval h0 hn hx0 hy0 hxn hyn, exceptBind_ok, exceptPure_eq]

/-- C7: the closed-detection of `polyline2pathd` holds exactly when the
first and last scanned coordinate pairs are equal as parsed numbers on both
coordinates (so numerically equal strings such as `"1.0"` and `"1"` count as
equal), and when closed the emitted polyline path ends with `z`. -/
theorem polyline_closed_detection :
    ∀ (m : AttrMap) (pts : List (String × String)) (p0 pn : String × String)
      (x0 y0 xn yn : Dec),
      coordPairScan ((List.lookup "points" m).getD "") = pts →
      pts.head? = some p0 → pts.getLast? = some pn →
      parseFloat p0.1 = some x0 → parseFloat p0.2 = some y0 →
      parseFloat pn.1 = some xn → parseFloat pn.2 = some yn →
      closedCheck pts = Except.ok (decide (Dec.Eqv x0 xn ∧ Dec.Eqv y0 yn)) ∧
      (Dec.Eqv x0 xn ∧ Dec.Eqv y0 yn →
        ∃ d, polyline2pathd (Sum.inr m) false = Except.ok d ∧
          d.data.getLast? = some 'z') := by
  intro m pts p0 pn x0 y0 xn yn hscan h0 hn hx0 hy0 hxn hyn
  refine ⟨closedCheck_eval h0 hn hx0 hy0 hxn hyn, ?_⟩
  intro hcl
  have hdec : decide (Dec.Eqv x0 xn ∧ Dec.Eqv y0 yn) = true := decide_eq_true hcl
  have heval := polyline2pathd_dict_eval false hscan h0 hn hx0 hy0 hxn hyn
  rw [hdec] at heval
  simp only [Bool.false_and, Bool.false_or, if_true, Bool.false_eq_true, if_false] at heval
  exact ⟨_, heval, getLast_data_z _⟩

/-- C7 witness: the polyline `1.0,2 3,4 1,2` is detected as closed (the
textually different `"1.0"` and `"1"` are numerically equal) and its path
ends with `z`. -/
theorem polyline_closed_detection_witness :
    closedCheck (coordPairScan "1.0,2 3,4 1,2") =
      Except.ok (decide (Dec.Eqv ⟨10, 1⟩ ⟨1, 0⟩ ∧ Dec.Eqv ⟨2, 0⟩ ⟨2, 0⟩)) ∧
    (Dec.Eqv ⟨10, 1⟩ ⟨1, 0⟩ ∧ Dec.Eqv ⟨2, 0⟩ ⟨2, 0⟩ →
      ∃ d, polyline2pathd (Sum.inr [("points", "1.0,2 3,4 1,2")]) false = Except.ok d ∧
        d.data.getLast? = some 'z') :=
  polyline_closed_detection [("points", "1.0,2 3,4 1,2")]
    (coordPairScan "1.0,2 3,4 1,2") ("1.0", "2") ("1", "2")
    ⟨10, 1⟩ ⟨2, 0⟩ ⟨1, 0⟩ ⟨2, 0⟩ rfl (by decide) (by decide)
    (by decide) (by decide) (by decide) (by decide)

/-- C2 counterexample: the open polygon `0,0 1,0 0,1` scans to 3 coordinate
pairs, but its emitted path `M0 0L1 0L0 1z` contains only 2 `L` commands,
not 3: the claimed count holds only for closed polygons. -/
theorem polygon_L_commands_cex :
    (coordPairScan "0,0 1,0 0,1").length = 3 ∧
    polygon2pathd (Sum.inr [("points", "0,0 1,0 0,1")]) = Except.ok "M0 0L1 0L0 1z" ∧
    countL "M0 0L1 0L0 1z" = 2 := by
  refine ⟨by decide, by decide, by decide⟩

/-- C2 amended: for every polygon whose points attribute scans to `n ≥ 3`
coordinate pairs (whose first/last coordinates coerce to floats), the
emitted path contains exactly `n` `L` commands after the initial `M` when
the polygon is closed (first and last pairs numerically equal, the case the
extra appended vertex is for), and `n − 1` `L` commands when it is open; the
last command is always `z`. -/
theorem polygon_L_commands :
    ∀ (m : AttrMap) (pts : List (String × String)) (p0 pn : String × String)
      (x0 y0 xn yn : Dec),
      coordPairScan ((List.lookup "points" m).getD "") = pts →
      3 ≤ pts.length →
      pts.head? = some p0 → pts.getLast? = some pn →
      parseFloat p0.1 = some x0 → parseFloat p0.2 = some y0 →
      parseFloat pn.1 = some xn → parseFloat pn.2 = some yn →
      ∃ d, polygon2pathd (Sum.inr m) = Except.ok d ∧
        countL d =
          (if Dec.Eqv x0 xn ∧ Dec.Eqv y0 yn then pts.length else pts.length - 1) ∧
        d.data.getLast? = some 'z' := by
  intro m pts p0 pn x0 y0 xn yn hscan hlen3 h0 hn hx0 hy0 hxn hyn
  have hall : ∀ p ∈ pts, countL (fmtPair p) = 0 := by
    intro p hp
    have hmem : p ∈ coordPairScan ((List.lookup "points" m).getD "") := by
      rw [hscan]
      exact hp
    obtain ⟨c1, c2⟩ := coordPairScan_numChar hmem
    exact countL_fmtPair c1 c2
  have heval := polyline2pathd_dict_eval true hscan h0 hn hx0 hy0 hxn hyn
  rw [show polygon2pathd (Sum.inr m) = polyline2pathd (Sum.inr m) true from rfl]
  by_cases hcl : Dec.Eqv x0 xn ∧ Dec.Eqv y0 yn
  · have hdec : decide (Dec.Eqv x0 xn ∧ Dec.Eqv y0 yn) = true := decide_eq_true hcl
    rw [hdec] at heval
    simp only [Bool.and_true, Bool.or_true, if_true] at heval
    refine ⟨_, heval, ?_, getLast_data_z _⟩
    rw [if_pos hcl, countL_append, countL_append]
    have hall2 : ∀ p ∈ pts ++ pts.take 1, countL (fmtPair p) = 0 := by
      intro p hp
      rcases List.mem_append.mp hp with hp2 | hp2
      · exact hall p hp2
      · exact hall p (List.take_subset _ _ hp2)
    rw [countL_joinL _ hall2]
    have hlt : (pts ++ pts.take 1).length = pts.length + 1 := by
      rw [List.length_append, List.length_take]
      omega
    rw [hlt]
    show 0 + (pts.length + 1 - 1) + 0 = pts.length
    omega
  · have hdec : decide (Dec.Eqv x0 xn ∧ Dec.Eqv y0 yn) = false := decide_eq_false hcl
    rw [hdec] at heval
    simp only [Bool.and_false, Bool.or_false, if_true, Bool.false_eq_true, if_false] at heval
    refine ⟨_, heval, ?_, getLast_data_z _⟩
    rw [if_neg hcl, countL_append, countL_append, countL_joinL _ hall]
    show 0 + (pts.length - 1) + 0 = pts.length - 1
    omega

/-- C2 amended witness: the closed polygon `0,0 1,0 0,0` has 3 scanned
pairs and its path `M0 0L1 0L0 0L0 0z` indeed has 3 `L` commands. -/
theorem polygon_L_commands_witness :
    ∃ d, polygon2pathd (Sum.inr [("points", "0,0 1,0 0,0")]) = Except.ok d ∧
      countL d =
        (if Dec.Eqv ⟨0, 0⟩ ⟨0, 0⟩ ∧ Dec.Eqv ⟨0, 0⟩ ⟨0, 0⟩ then
          (coordPairScan "0,0 1,0 0,0").length
        else (coordPairScan "0,0 1,0 0,0").length - 1) ∧
      d.data.getLast? = some 'z' :=
  polygon_L_commands [("points", "0,0 1,0 0,0")] (coordPairScan "0,0 1,0 0,0")
    ("0", "0") ("0", "0") ⟨0, 0⟩ ⟨0, 0⟩ ⟨0, 0⟩ ⟨0, 0⟩ rfl (by decide)
    (by decide) (by decide) (by decide) (by decide) (by decide) (by decide)

theorem pyFloat_attrOr_present {m : AttrMap} {k s : String} {q : Dec}
    (h : List.lookup k m = some s) (hp : parseFloat s = some q) :
    pyFloat (attrOr m k (PyVal.num 0)) = Except.ok q := by
  simp [attrOr, h, pyFloat, hp]

theorem pyFloat_attrOr_absent {m : AttrMap} {k : String}
    (h : List.lookup k m = none) :
    pyFloat (attrOr m k (PyVal.num 0)) = Except.ok 0 := by
  simp [attrOr, h, pyFloat]

/-- C4: in default (arc) mode `ellipse2pathd` emits exactly the
spec-described two-half-arc closed path; the circle attribute `r` sets both
radii to the same value (taking precedence), `cx`/`cy` default to 0 when
absent, and the first arc's relative displacement 2rx indeed lands on
(cx + rx, cy) when starting from (cx − rx, cy). -/
theorem ellipse_arc_mode :
    (∀ (m : AttrMap) (cx cy rx ry : Dec),
      ((∃ s, List.lookup "cx" m = some s ∧ parseFloat s = some cx) ∨
        (List.lookup "cx" m = none ∧ cx = 0)) →
      ((∃ s, List.lookup "cy" m = some s ∧ parseFloat s = some cy) ∨
        (List.lookup "cy" m = none ∧ cy = 0)) →
      ((∃ s, List.lookup "r" m = some s ∧ parseFloat s = some rx ∧ ry = rx) ∨
        (List.lookup "r" m = none ∧
          (∃ s, List.lookup "rx" m = some s ∧ parseFloat s = some rx) ∧
          (∃ s, List.lookup "ry" m = some s ∧ parseFloat s = some ry))) →
      ellipse2pathd m false = Except.ok (specArcEllipseD cx cy rx ry)) ∧
    (∀ cx rx : Dec, Dec.Eqv ((cx - rx) + 2 * rx) (cx + rx)) := by
  constructor
  · intro m cx cy rx ry hcx hcy hr
    have hcxF : pyFloat (attrOr m "cx" (PyVal.num 0)) = Except.ok cx := by
      rcases hcx with ⟨s2, h1, h2⟩ | ⟨h1, h2⟩
      · exact pyFloat_attrOr_present h1 h2
      · subst h2
        exact pyFloat_attrOr_absent h1
    have hcyF : pyFloat (attrOr m "cy" (PyVal.num 0)) = Except.ok cy := by
      rcases hcy with ⟨s2, h1, h2⟩ | ⟨h1, h2⟩
      · exact pyFloat_attrOr_present h1 h2
      · subst h2
        exact pyFloat_attrOr_absent h1
    rcases hr with ⟨s, hs, hps, hryx⟩ | ⟨hrn, ⟨sx, hsx, hpsx⟩, ⟨sy, hsy, hpsy⟩⟩
    · have hrF : pyFloat (PyVal.str s) = Except.ok rx := by simp [pyFloat, hps]
      rw [hryx]
      simp [ellipse2pathd, hs, hrF, hcxF, hcyF, specArcEllipseD]
    · have hrxF : pyFloat (PyVal.str sx) = Except.ok rx := by simp [pyFloat, hpsx]
      have hryF : pyFloat (PyVal.str sy) = Except.ok ry := by simp [pyFloat, hpsy]
      simp [ellipse2pathd, hrn, hsx, hsy, hrxF, hryF, hcxF, hcyF, specArcEllipseD]
  · intro cx rx
    rw [Dec.eqv_iff_val, Dec.val_add, Dec.val_sub, Dec.val_add, Dec.val_mul, Dec.val_ofNat]
    ring

/-- C4 witness: a circle with `r = 5` and absent `cx`, `cy`. -/
theorem ellipse_arc_mode_witness :
    ellipse2pathd [("r", "5")] false = Except.ok (specArcEllipseD 0 0 ⟨5, 0⟩ ⟨5, 0⟩) ∧
    Dec.Eqv ((0 - ⟨5, 0⟩ : Dec) + 2 * ⟨5, 0⟩) ((0 : Dec) + ⟨5, 0⟩) :=
  ⟨ellipse_arc_mode.1 [("r", "5")] 0 0 ⟨5, 0⟩ ⟨5, 0⟩
      (Or.inr ⟨rfl, rfl⟩) (Or.inr ⟨rfl, rfl⟩)
      (Or.inl ⟨"5", rfl, by decide, rfl⟩),
    ellipse_arc_mode.2 0 ⟨5, 0⟩⟩

/-- C5: with `use_cubics = True`, `ellipse2pathd` emits exactly the
spec-described four-cubic approximation: move to the rightmost point
(cx + rx, cy), four `C` commands tracing the quadrants clockwise in order
bottom-right, bottom-left, top-left, top-right with per-axis control-point
offsets rx·0.552284 and ry·0.552284, the fourth ending at (cx + rx, cy), and
a final `z`; attribute extraction (defaults, the circle `r`) is as in arc
mode. -/
theorem ellipse_cubic_mode :
    ∀ (m : AttrMap) (cx cy rx ry : Dec),
      ((∃ s, List.lookup "cx" m = some s ∧ parseFloat s = some cx) ∨
        (List.lookup "cx" m = none ∧ cx = 0)) →
      ((∃ s, List.lookup "cy" m = some s ∧ parseFloat s = some cy) ∨
        (List.lookup "cy" m = none ∧ cy = 0)) →
      ((∃ s, List.lookup "r" m = some s ∧ parseFloat s = some rx ∧ ry = rx) ∨
        (List.lookup "r" m = none ∧
          (∃ s, List.lookup "rx" m = some s ∧ parseFloat s = some rx) ∧
          (∃ s, List.lookup "ry" m = some s ∧ parseFloat s = some ry))) →
      ellipse2pathd m true = Except.ok (specCubicEllipseD cx cy rx ry) := by
  intro m cx cy rx ry hcx hcy hr
  have hcxF : pyFloat (attrOr m "cx" (PyVal.num 0)) = Except.ok cx := by
    rcases hcx with ⟨s2, h1, h2⟩ | ⟨h1, h2⟩
    · exact pyFloat_attrOr_present h1 h2
    · subst h2
      exact pyFloat_attrOr_absent h1
  have hcyF : pyFloat (attrOr m "cy" (PyVal.num 0)) = Except.ok cy := by
    rcases hcy with ⟨s2, h1, h2⟩ | ⟨h1, h2⟩
    · exact pyFloat_attrOr_present h1 h2
    · subst h2
      exact pyFloat_attrOr_absent h1
  rcases hr with ⟨s, hs, hps, hryx⟩ | ⟨hrn, ⟨sx, hsx, hpsx⟩, ⟨sy, hsy, hpsy⟩⟩
  · have hrF : pyFloat (PyVal.str s) = Except.ok rx := by simp [pyFloat, hps]
    rw [hryx]
    simp [ellipse2pathd, hs, hrF, hcxF, hcyF, specCubicEllipseD]
  · have hrxF : pyFloat (PyVal.str sx) = Except.ok rx := by simp [pyFloat, hpsx]
    have hryF : pyFloat (PyVal.str sy) = Except.ok ry := by simp [pyFloat, hpsy]
    simp [ellipse2pathd, hrn, hsx, hsy, hrxF, hryF, hcxF, hcyF, specCubicEllipseD]

/-- C5 witness: an ellipse with `cx = 1`, `cy = 2`, `rx = 5`, `ry = 10`. -/
theorem ellipse_cubic_mode_witness :
    ellipse2pathd [("cx", "1"), ("cy", "2"), ("rx", "5"), ("ry", "10")] true =
      Except.ok (specCubicEllipseD ⟨1, 0⟩ ⟨2, 0⟩ ⟨5, 0⟩ ⟨10, 0⟩) :=
  ellipse_cubic_mode [("cx", "1"), ("cy", "2"), ("rx", "5"), ("ry", "10")]
    ⟨1, 0⟩ ⟨2, 0⟩ ⟨5, 0⟩ ⟨10, 0⟩
    (Or.inl ⟨"1", rfl, by decide⟩) (Or.inl ⟨"2", rfl, by decide⟩)
    (Or.inr ⟨rfl, ⟨"5", rfl, by decide⟩, ⟨"10", rfl, by decide⟩⟩)

/-- C6: for rect attribute mappings agreeing on x, y, width, height, setting
only `rx = v` (no `ry`), setting only `ry = v` (no `rx`), and setting both
to `v` all produce the identical path-description string (single-radius
fallback, both directions), and the conversion succeeds when the values are
numeric. -/
theorem rect_radius_fallback :
    ∀ (m1 m2 m3 : AttrMap) (v : String) (q xv yv wv hv : Dec),
      parseFloat v = some q →
      pyFloat (attrOr m2 "x" (PyVal.num 0)) = Except.ok xv →
      pyFloat (attrOr m2 "y" (PyVal.num 0)) = Except.ok yv →
      pyFloat (attrOr m2 "width" (PyVal.num 0)) = Except.ok wv →
      pyFloat (attrOr m2 "height" (PyVal.num 0)) = Except.ok hv →
      (∀ k, k = "x" ∨ k = "y" ∨ k = "width" ∨ k = "height" →
        List.lookup k m1 = List.lookup k m2 ∧ List.lookup k m3 = List.lookup k m2) →
      List.lookup "rx" m1 = some v → List.lookup "ry" m1 = none →
      List.lookup "rx" m2 = some v → List.lookup "ry" m2 = some v →
      List.lookup "rx" m3 = none → List.lookup "ry" m3 = some v →
      rect2pathd m1 = rect2pathd m2 ∧ rect2pathd m3 = rect2pathd m2 ∧
        ∃ d, rect2pathd m2 = Except.ok d := by
  intro m1 m2 m3 v q xv yv wv hv hq hx hy hw hh hagree hrx1 hry1 hrx2 hry2 hrx3 hry3
  have hvne : v ≠ "" := by
    intro hc
    rw [hc, show parseFloat "" = none from rfl] at hq
    cases hq
  have e1x : attrOr m1 "x" (PyVal.num 0) = attrOr m2 "x" (PyVal.num 0) := by
    rw [attrOr, attrOr, (hagree "x" (Or.inl rfl)).1]
  have e1y : attrOr m1 "y" (PyVal.num 0) = attrOr m2 "y" (PyVal.num 0) := by
    rw [attrOr, attrOr, (hagree "y" (Or.inr (Or.inl rfl))).1]
  have e1w : attrOr m1 "width" (PyVal.num 0) = attrOr m2 "width" (PyVal.num 0) := by
    rw [attrOr, attrOr, (hagree "width" (Or.inr (Or.inr (Or.inl rfl)))).1]
  have e1h : attrOr m1 "height" (PyVal.num 0) = attrOr m2 "height" (PyVal.num 0) := by
    rw [attrOr, attrOr, (hagree "height" (Or.inr (Or.inr (Or.inr rfl)))).1]
  have e3x : attrOr m3 "x" (PyVal.num 0) = attrOr m2 "x" (PyVal.num 0) := by
    rw [attrOr, attrOr, (hagree "x" (Or.inl rfl)).2]
  have e3y : attrOr m3 "y" (PyVal.num 0) = attrOr m2 "y" (PyVal.num 0) := by
    rw [attrOr, attrOr, (hagree "y" (Or.inr (Or.inl rfl))).2]
  have e3w : attrOr m3 "width" (PyVal.num 0) = attrOr m2 "width" (PyVal.num 0) := by
    rw [attrOr, attrOr, (hagree "width" (Or.inr (Or.inr (Or.inl rfl)))).2]
  have e3h : attrOr m3 "height" (PyVal.num 0) = attrOr m2 "height" (PyVal.num 0) := by
    rw [attrOr, attrOr, (hagree "height" (Or.inr (Or.inr (Or.inr rfl)))).2]
  refine ⟨?_, ?_, ?_⟩
  · rw [rect2pathd, rect2pathd, e1x, e1y, e1w, e1h]
    simp only [hrx1, hry1, hrx2, hry2]
    simp [hvne]
  · rw [rect2pathd, rect2pathd, e3x, e3y, e3w, e3h]
    simp only [hrx3, hry3, hrx2, hry2]
    simp [hvne]
  · have hvF : pyFloat (PyVal.str v) = Except.ok q := by simp [pyFloat, hq]
    rw [rect2pathd]
    simp only [hx, hy, hw, hh, exceptBind_ok]
    simp only [hrx2, hry2, Option.isSome_some, Bool.true_or, if_true]
    simp only [hvF, exceptBind_ok, exceptPure_eq]
    exact ⟨_, rfl⟩

/-- C6 witness: a 10×10 rect at the origin with radius value `"2"` in the
three attribute layouts. -/
theorem rect_radius_fallback_witness :
    rect2pathd [("x", "0"), ("y", "0"), ("width", "10"), ("height", "10"), ("rx", "2")] =
      rect2pathd
        [("x", "0"), ("y", "0"), ("width", "10"), ("height", "10"), ("rx", "2"), ("ry", "2")] ∧
    rect2pathd [("x", "0"), ("y", "0"), ("width", "10"), ("height", "10"), ("ry", "2")] =
      rect2pathd
        [("x", "0"), ("y", "0"), ("width", "10"), ("height", "10"), ("rx", "2"), ("ry", "2")] ∧
    ∃ d,
      rect2pathd
        [("x", "0"), ("y", "0"), ("width", "10"), ("height", "10"), ("rx", "2"), ("ry", "2")] =
      Except.ok d :=
  rect_radius_fallback
    [("x", "0"), ("y", "0"), ("width", "10"), ("height", "10"), ("rx", "2")]
    [("x", "0"), ("y", "0"), ("width", "10"), ("height", "10"), ("rx", "2"), ("ry", "2")]
    [("x", "0"), ("y", "0"), ("width", "10"), ("height", "10"), ("ry", "2")]
    "2" ⟨2, 0⟩ ⟨0, 0⟩ ⟨0, 0⟩ ⟨10, 0⟩ ⟨10, 0⟩
    (by decide) (by decide) (by decide) (by decide) (by decide)
    (by intro k hk; rcases hk with h | h | h | h <;> subst h <;> exact ⟨rfl, rfl⟩)
    rfl rfl rfl rfl rfl rfl
